import Mathlib

/-!
Verification of the pytest-diff remote-baseline, merge and plugin-configuration
layer, as a shallow embedding of the Python sources
(`pytest_diff/cli.py`, `pytest_diff/_storage_ops.py`, `pytest_diff/plugin.py`,
`pytest_diff/storage/local.py`, `pytest_diff/storage/s3.py`).

Pure string manipulation mirrors the Python string primitives; file systems,
stores and the S3 service are modelled as explicit state (association lists
and response functions); fallible calls return `Except`/`Option` (`none` /
`.error` standing for a raised exception).  Python float mtimes are modelled
as integers (only their ordering matters to the code under study).
-/

/-! ## Python string primitives -/

/-- Python `s.endswith(suf)` over the underlying character list. -/
def pyEndsWith (s suf : String) : Bool :=
  suf.data.isSuffixOf s.data

/-- Python `s.startswith(p)` over the underlying character list. -/
def pyStartsWith (s p : String) : Bool :=
  p.data.isPrefixOf s.data

/-- Python `s[:8]` (used by the commit-mismatch warnings to abbreviate SHAs). -/
def strTake8 (s : String) : String :=
  String.mk (s.data.take 8)

/-- Python `s.strip()` restricted to whitespace (both ends). -/
def pyStrip (s : String) : String :=
  String.mk (((s.data.dropWhile Char.isWhitespace).reverse.dropWhile Char.isWhitespace).reverse)

/-- Split a character list at its LAST slash: returns `(before, after)`,
`none` when no slash occurs.  Underlies Python `s.rsplit("/", 1)`. -/
def splitAtLastSlashAux : List Char → Option (List Char × List Char)
  | [] => none
  | c :: cs =>
    match splitAtLastSlashAux cs with
    | some (a, b) => some (c :: a, b)
    | none => if c = '/' then some ([], cs) else none

/-- Python `s.rsplit("/", 1)` when the separator occurs: `some (before, after)`
at the last slash; `none` when `s` has no slash (Python then returns `[s]`). -/
def rsplitSlash (s : String) : Option (String × String) :=
  (splitAtLastSlashAux s.data).map fun p => (String.mk p.1, String.mk p.2)

/-- Python `Path(p).name`: the part after the last slash (`p` itself if none). -/
def baseName (p : String) : String :=
  match rsplitSlash p with
  | some q => q.2
  | none => p

/-- Python `", ".join(l)`. -/
def joinComma : List String → String
  | [] => ""
  | [x] => x
  | x :: y :: rest => x ++ ", " ++ joinComma (y :: rest)

/-- Python `a or b or None` for an optional string `a` and a string `b`
(empty strings are falsy), as used for `--diff-remote` / ini-key fallback. -/
def pyOr (a : Option String) (b : String) : Option String :=
  match a with
  | some s => if s = "" then (if b = "" then none else some b) else some s
  | none => if b = "" then none else some b

/-! ## Storage-layer error taxonomy

The Python code distinguishes `FileNotFoundError` (spec kind `NotFound`) from
every other exception (credential rejections included, spec kind `AuthError`);
`otherErr` stands for any other non-`NotFound` exception. -/

inductive StorageErr
  | notFound
  | authError
  | otherErr
deriving DecidableEq

/-! ## Local filesystem model (for `storage/local.py`)

A file is its mtime (stat) plus an abstract byte-content identifier; a file
system is an association list from path to file, last write first. -/

structure FSFile where
  mtime : Int
  bytes : Nat
deriving DecidableEq

structure FS where
  entries : List (String × FSFile)
deriving DecidableEq

/-- Look a path up (`Path.exists` / `stat` combined). -/
def FS.get (fs : FS) (p : String) : Option FSFile :=
  (fs.entries.find? (fun e => e.1 == p)).map (fun e => e.2)

/-- Write a file at a path (`shutil.copy2` destination: bytes and mtime). -/
def FS.set (fs : FS) (p : String) (f : FSFile) : FS :=
  ⟨(p, f) :: fs.entries⟩

/-- `LocalStorage.download` from `storage/local.py`: resolve the source under
the storage root, fail with `NotFound` when absent, skip the copy when the
destination exists with mtime at least the source mtime, otherwise copy
(`copy2` preserves bytes and mtime).  Returns the updated file system and the
bytes-were-fetched flag. -/
def localDownload (root : String) (fs : FS) (remoteKey localPath : String) :
    Except StorageErr (FS × Bool) :=
  let src := root ++ "/" ++ remoteKey
  match fs.get src with
  | none => .error .notFound
  | some s =>
    match fs.get localPath with
    | some d =>
      if s.mtime ≤ d.mtime then .ok (fs, false)
      else .ok (fs.set localPath s, true)
    | none => .ok (fs.set localPath s, true)

/-! ## S3 storage model (for `storage/s3.py`)

The local side of an S3 download is a pair of association lists: downloaded
`.db` files (abstract byte-content identifiers) and their `.etag` sidecar
files (text content).  The S3 service itself is a response function from the
optional `IfNoneMatch` header of the conditional GET (bucket and key fixed). -/

structure S3Local where
  files : List (String × Nat)
  etags : List (String × String)
deriving DecidableEq

def S3Local.fileGet (st : S3Local) (p : String) : Option Nat :=
  (st.files.find? (fun e => e.1 == p)).map (fun e => e.2)

def S3Local.etagGet (st : S3Local) (p : String) : Option String :=
  (st.etags.find? (fun e => e.1 == p)).map (fun e => e.2)

def S3Local.fileSet (st : S3Local) (p : String) (b : Nat) : S3Local :=
  ⟨(p, b) :: st.files, st.etags⟩

def S3Local.etagSet (st : S3Local) (p : String) (e : String) : S3Local :=
  ⟨st.files, (p, e) :: st.etags⟩

/-- Responses of `client.get_object`: absent key (`NoSuchKey`), 304 wrapped in
a `ClientError`, success (body bytes and entity tag), or any other failure. -/
inductive S3Resp
  | noSuchKey
  | notModified
  | ok (body : Nat) (etag : String)
  | otherFailure
deriving DecidableEq

/-- The `IfNoneMatch` header `S3Storage.download` sends: the stripped sidecar
content when the sidecar `<local_path>.etag` AND the local file both exist and
the stripped content is truthy (non-empty); otherwise an unconditional GET. -/
def s3IfNoneMatch (st : S3Local) (lp : String) : Option String :=
  match st.etagGet (lp ++ ".etag"), st.fileGet lp with
  | some e, some _ =>
    let te := pyStrip e
    if te = "" then none else some te
  | _, _ => none

/-- `S3Storage.download` from `storage/s3.py`: issue the (possibly
conditional) GET; `NoSuchKey` raises `NotFound`, a 304 returns `false` with
the local state untouched, any other error propagates, and a success writes
the body to `local_path`, records the response ETag in the sidecar when that
tag is non-empty, and returns `true`. -/
def s3Download (svc : Option String → S3Resp) (st : S3Local) (lp : String) :
    Except StorageErr (S3Local × Bool) :=
  match svc (s3IfNoneMatch st lp) with
  | .noSuchKey => .error .notFound
  | .notModified => .ok (st, false)
  | .otherFailure => .error .otherErr
  | .ok body etag =>
    let st1 := st.fileSet lp body
    let st2 := if etag = "" then st1 else st1.etagSet (lp ++ ".etag") etag
    .ok (st2, true)

/-! ## CLI merge tool model (for `cli.py` and the merge loop of
`_storage_ops.py`)

The local store (`PytestDiffDatabase`) is abstract: a list of merged rows.
A per-source `merge_baseline_from` call either succeeds with an updated store
and an import result, or raises (`none`). -/

/-- `_is_remote_url` from `cli.py`. -/
def isRemoteUrl (path : String) : Bool :=
  pyStartsWith path "s3://" || pyStartsWith path "file://"

structure ImportResult where
  baseline_count : Nat
  test_execution_count : Nat
deriving DecidableEq

structure DB where
  rows : List (String × Nat)
deriving DecidableEq

/-- The ambient state the CLI merge tool runs against: the local/remote file
layout, per-store metadata, the store merge operation and the remote upload.
All accessors are pure; reading metadata cannot mutate a source store. -/
structure CliEnv where
  /-- `Path(p).exists()` for local inputs. -/
  pathExists : String → Bool
  /-- `Path(p).is_dir()`. -/
  isDir : String → Bool
  /-- `sorted(Path(p).glob("*.db"))` for a local directory input. -/
  dirDbFiles : String → List String
  /-- Local paths of all `.db` files downloaded from under a remote prefix
  URL into the temp directory; `none` models a download failure. -/
  remotePrefixDbs : String → Option (List String)
  /-- Local path of a single downloaded remote object; `none` is failure. -/
  remoteSingleDb : String → Option String
  /-- `db.get_external_metadata(path, "baseline_commit")`; `none` models a
  missing key or an unreadable store (the callers skip both). -/
  meta : String → Option String
  /-- `db.merge_baseline_from(path)`; `none` models a raised exception. -/
  mergeStep : DB → String → Option (DB × ImportResult)
  /-- Whether uploading the merged file to the remote output URL succeeds. -/
  uploadOk : String → Bool

/-- Modelled from the spec: `download_remote_databases`, imported by
`cli._resolve_inputs` from `pytest_diff._storage_ops` but absent from the
sources.  Per the spec's input grammar, a remote prefix URL (trailing slash)
contributes every `.db` file downloaded from under that prefix into a
temporary directory, and a remote single-object URL contributes that one
downloaded file; `none` models a download failure. -/
def download_remote_databases (env : CliEnv) (url : String) : Option (List String) :=
  if pyEndsWith url "/" then env.remotePrefixDbs url
  else (env.remoteSingleDb url).map fun f => [f]

/-- Modelled from the spec: `upload_to_remote`, imported by
`cli.merge_databases` from `pytest_diff._storage_ops` but absent from the
sources.  The tool writes the merged store to a temp file and uploads it to
the remote output URL; the upload either succeeds or raises. -/
def upload_to_remote (env : CliEnv) (url : String) : Bool :=
  env.uploadOk url

/-- The accumulator loop of `_resolve_inputs` (`cli.py`): remote URLs are
downloaded (a failure raises out of the loop), local directories contribute
their `*.db` files, and anything else is kept as-is. -/
def resolveInputsAux (env : CliEnv) : List String → List String → Option (List String)
  | acc, [] => some acc
  | acc, i :: rest =>
    if isRemoteUrl i then
      match download_remote_databases env i with
      | none => none
      | some files => resolveInputsAux env (acc ++ files) rest
    else if env.isDir i then resolveInputsAux env (acc ++ env.dirDbFiles i) rest
    else resolveInputsAux env (acc ++ [i]) rest

/-- `_resolve_inputs` from `cli.py` (temp-directory management elided: the
downloaded paths live in the temp directory by construction). -/
def resolveInputs (env : CliEnv) (inputs : List String) : Option (List String) :=
  resolveInputsAux env [] inputs

/-- The per-input contribution as the spec's input grammar states it
(spec-side reference for the refinement claim about `_resolve_inputs`). -/
def resolveOneSpec (env : CliEnv) (i : String) : Option (List String) :=
  if isRemoteUrl i then download_remote_databases env i
  else if env.isDir i then some (env.dirDbFiles i)
  else some [i]

/-- The per-source merge loop of `_download_and_merge_baselines`
(`_storage_ops.py` 160-183): each `merge_baseline_from` failure is caught,
logged as a warning and skipped; successes update the store and the running
baseline / test-execution totals. -/
def mergeLoopOps (step : DB → String → Option (DB × ImportResult)) :
    DB → List String → DB × Nat × Nat
  | db, [] => (db, 0, 0)
  | db, f :: rest =>
    match step db f with
    | some (db2, r) =>
      let t := mergeLoopOps step db2 rest
      (t.1, r.baseline_count + t.2.1, r.test_execution_count + t.2.2)
    | none => mergeLoopOps step db rest

/-- The per-source merge loop of the CLI `merge_databases` (`cli.py`
106-115): there is no per-source exception handler, so a failing
`merge_baseline_from` raises out of the loop (`none`). -/
def cliMergeLoop (step : DB → String → Option (DB × ImportResult)) :
    DB → List String → Option (DB × Nat × Nat)
  | db, [] => some (db, 0, 0)
  | db, f :: rest =>
    match step db f with
    | some (db2, r) =>
      (cliMergeLoop step db2 rest).map fun t =>
        (t.1, r.baseline_count + t.2.1, r.test_execution_count + t.2.2)
    | none => none

/-- Python `commits.setdefault(commit, []).append(name)` on an
insertion-ordered association list. -/
def addCommit (acc : List (String × List String)) (c name : String) :
    List (String × List String) :=
  if acc.any (fun p => p.1 == c) then
    acc.map (fun p => if p.1 == c then (p.1, p.2 ++ [name]) else p)
  else acc ++ [(c, [name])]

/-- The commit-gathering loop shared by `_check_merge_commit_consistency`
(`cli.py`) and `_check_commit_consistency` (`_storage_ops.py`): read
`baseline_commit` from each input store (a pure read of the source), skipping
unreadable stores and falsy (absent or empty) values. -/
def gatherCommitsAux (meta : String → Option String)
    (acc : List (String × List String)) : List String → List (String × List String)
  | [] => acc
  | f :: rest =>
    match meta f with
    | some c =>
      if c = "" then gatherCommitsAux meta acc rest
      else gatherCommitsAux meta (addCommit acc c (baseName f)) rest
    | none => gatherCommitsAux meta acc rest

def gatherCommits (meta : String → Option String) (inputs : List String) :
    List (String × List String) :=
  gatherCommitsAux meta [] inputs

/-- One `f"{sha[:8]}({len(files)} files)"` detail entry. -/
def commitEntry (p : String × List String) : String :=
  strTake8 p.1 ++ "(" ++ toString p.2.length ++ " files)"

/-- `_check_merge_commit_consistency` from `cli.py` 139-157: the single
warning (printed to stderr) emitted when the inputs carry more than one
distinct `baseline_commit`; `none` when no warning is emitted. -/
def checkMergeCommitConsistency (meta : String → Option String)
    (inputs : List String) : Option String :=
  let commits := gatherCommits meta inputs
  if commits.length > 1 then
    some ("Warning: Merging baselines from different commits: "
      ++ joinComma (commits.map commitEntry)
      ++ ". This may cause inconsistent test selection.")
  else none

/-- Outcome of one CLI `merge_databases` call: `exitCode = none` models an
exception escaping `merge_databases` (the process then dies with a traceback
instead of returning a code); `warning` is the commit-mismatch warning
printed to stderr, `none` when it is not printed. -/
structure CliOutcome where
  exitCode : Option Nat
  warning : Option String
deriving DecidableEq

/-- `merge_databases` from `cli.py` 52-137: reject an empty input list and
missing local inputs; resolve inputs (a download failure is caught → exit 1);
reject an empty resolution; create the destination store, run the commit
consistency check (warning only), merge each source (an exception escapes),
and finally upload when the output is a remote URL (an upload failure → exit
1); otherwise exit 0. -/
def mergeDatabases (env : CliEnv) (db0 : DB) (output : String)
    (inputs : List String) : CliOutcome :=
  if inputs = [] then ⟨some 1, none⟩
  else if inputs.any (fun i => !isRemoteUrl i && !env.pathExists i) then ⟨some 1, none⟩
  else
    match resolveInputs env inputs with
    | none => ⟨some 1, none⟩
    | some localInputs =>
      if localInputs = [] then ⟨some 1, none⟩
      else
        let warning := checkMergeCommitConsistency env.meta localInputs
        match cliMergeLoop env.mergeStep db0 localInputs with
        | none => ⟨none, warning⟩
        | some _ =>
          if isRemoteUrl output then
            if upload_to_remote env output then ⟨some 0, warning⟩
            else ⟨some 1, warning⟩
          else ⟨some 0, warning⟩

/-! ## Plugin remote-selection model (for `plugin.py` and
`_storage_ops._download_single_baseline`) -/

/-- `_is_prefix_key` from `_storage_ops.py`. -/
def isPrefixKey (k : String) : Bool :=
  k = "" || pyEndsWith k "/"

/-- `_download_single_baseline` from `_storage_ops.py` 73-126: download the
remote baseline to a fresh temp path (`dl` is the storage `download` result);
a `NotFound` is caught and the function returns with the local store
untouched; any other storage error propagates to the caller; on a fetched or
cached file the temp store is imported into the local store when one is open
(`imp` is `import_baseline_from`; its failure is caught and logged, leaving
the store as it was — imports are transactional in the model). -/
def downloadSingleBaseline (dl : Except StorageErr Bool) (imp : DB → Option DB)
    (db : Option DB) : Except StorageErr (Option DB) :=
  match dl with
  | .error .notFound => .ok db
  | .error e => .error e
  | .ok _ =>
    match db with
    | none => .ok none
    | some d =>
      match imp d with
      | some d2 => .ok (some d2)
      | none => .ok (some d)

/-- `download_and_import_baseline` from `_storage_ops.py` 43-70: skip when
the storage backend failed to initialize (unsupported scheme — a warning);
dispatch prefix keys to the bulk merge path (abstracted as `mergeBranch`) and
anything else to the single-file path. -/
def downloadAndImportBaseline (storageOk : Bool) (remoteKey : String)
    (dl : Except StorageErr Bool) (imp : DB → Option DB)
    (mergeBranch : Except StorageErr (Option DB)) (db : Option DB) :
    Except StorageErr (Option DB) :=
  if !storageOk then .ok db
  else if isPrefixKey remoteKey then mergeBranch
  else downloadSingleBaseline dl imp db

/-- Whether the surrounding test run proceeds, and with which local store, or
aborts with a process return code. -/
inductive RunOutcome
  | continued (db : Option DB)
  | aborted (returncode : Nat)
deriving DecidableEq

/-- The remote-baseline block of `_configure_as_controller_or_standalone`
(`plugin.py` 274-292): it runs only on a selection run (remote configured and
not baseline mode); any exception escaping `download_and_import_baseline`
becomes `pytest.exit(..., returncode=1)`, aborting the test run. -/
def configureRemoteSelection (hasRemote baseline storageOk : Bool)
    (remoteKey : String) (dl : Except StorageErr Bool) (imp : DB → Option DB)
    (mergeBranch : Except StorageErr (Option DB)) (db : Option DB) : RunOutcome :=
  if hasRemote && !baseline then
    match downloadAndImportBaseline storageOk remoteKey dl imp mergeBranch db with
    | .ok db2 => .continued db2
    | .error _ => .aborted 1
  else .continued db

/-! ## Test-execution recording model (for `pytest_runtest_makereport`,
`plugin.py` 510-647) -/

inductive CallPhase
  | setup
  | call
  | teardown
deriving DecidableEq

/-- Kind of the exception a test phase raised (`call.excinfo`): a pytest
skip, the xfail exception, or a genuine failure. -/
inductive ExcKind
  | skipped
  | xfailExc
  | otherFail
deriving DecidableEq

structure TestExecRecord where
  nodeid : String
  fingerprints : List Nat
  duration : Nat
  failed : Bool
deriving DecidableEq

/-- `pytest_runtest_makereport` reduced to its effect on the batched
test-execution records (the only path that ever creates such records; the
terminal-summary flush writes the batch to the store verbatim).
`testFileFp` is the `_test_file_fingerprint` result used for setup-phase
skips, `covFps` the fingerprints computed from coverage (or the test-file
fallback) in the call phase, `hasXfailMarker` the `xfail` marker check. -/
def makereportBatch (enabled baseline : Bool) (phase : CallPhase)
    (exc : Option ExcKind) (hasXfailMarker : Bool) (nodeid : String)
    (testFileFp covFps : List Nat) (duration : Nat)
    (batch : List TestExecRecord) : List TestExecRecord :=
  if !enabled then batch
  else if !baseline then batch
  else if phase = CallPhase.setup ∧ exc = some ExcKind.skipped then
    if testFileFp ≠ [] then batch ++ [⟨nodeid, testFileFp, 0, false⟩] else batch
  else if phase ≠ CallPhase.call then batch
  else if exc.isSome ∧ exc ≠ some ExcKind.skipped ∧
      ¬(hasXfailMarker = true ∨ exc = some ExcKind.xfailExc) then batch
  else if covFps ≠ [] then batch ++ [⟨nodeid, covFps, duration, false⟩]
  else batch

/-! ## Worker / controller event-trace model (for `pytest_configure` and
`pytest_terminal_summary`, `plugin.py`) -/

/-- The externally visible steps of plugin configuration and teardown. -/
inductive Event
  | openDb
  | initCache
  | initCoverage
  | downloadRemote
  | importRemote
  | flushBatch
  | saveBaselineSummary
  | setMetadata (key : String) (value : String)
  | uploadRemote
  | closeStorage
  | closeDb
deriving DecidableEq

/-- `_configure_as_worker` (`plugin.py` 181-222) as its event trace: open the
published store, initialize the fingerprint cache, initialize coverage only
in baseline mode; no remote download.  A failed open disables the plugin. -/
def configureWorkerEvents (baseline dbOpenOk : Bool) : List Event :=
  [Event.openDb] ++
  (if dbOpenOk then
    [Event.initCache] ++ (if baseline then [Event.initCoverage] else [])
  else [])

/-- `_configure_as_controller_or_standalone` (`plugin.py` 224-294) as its
event trace (store-corruption recovery collapsed into the single `openDb`):
the remote baseline is downloaded and imported only on a selection run with a
remote configured. -/
def configureControllerEvents (baseline hasRemote : Bool) : List Event :=
  [Event.openDb, Event.initCache] ++
  (if baseline then [Event.initCoverage] else []) ++
  (if hasRemote && !baseline then [Event.downloadRemote, Event.importRemote] else [])

/-- `pytest_terminal_summary` (`plugin.py` 649-764) as its event trace: flush
the batch, then workers only close their store handle and return; the
controller/standalone in baseline mode saves the baseline summary, writes the
`baseline_commit` metadata (when a truthy git SHA is available) and the
`baseline_scope` metadata, and uploads after closing when requested. -/
def terminalSummaryEvents (enabled isWorker baseline upload hasRemote : Bool)
    (sha : Option String) (scopesJson : String) : List Event :=
  if !enabled then []
  else
    [Event.flushBatch] ++
    (if isWorker then [Event.closeDb]
    else if baseline then
      [Event.saveBaselineSummary] ++
      (match sha with
       | some s => if s ≠ "" then [Event.setMetadata "baseline_commit" s] else []
       | none => []) ++
      [Event.setMetadata "baseline_scope" scopesJson] ++
      (if upload && hasRemote then [Event.closeDb, Event.uploadRemote] else [])
    else [Event.closeDb])

/-- Full worker-process trace: worker configuration followed by the worker
branch of the terminal summary (`enabled` stays set only when the store
opened). -/
def workerRunEvents (baseline dbOpenOk upload hasRemote : Bool)
    (sha : Option String) (scopesJson : String) : List Event :=
  configureWorkerEvents baseline dbOpenOk ++
  terminalSummaryEvents dbOpenOk true baseline upload hasRemote sha scopesJson

/-- Full controller/standalone-process trace. -/
def controllerRunEvents (baseline upload hasRemote : Bool)
    (sha : Option String) (scopesJson : String) : List Event :=
  configureControllerEvents baseline hasRemote ++
  terminalSummaryEvents true false baseline upload hasRemote sha scopesJson

/-- The steps the single-writer discipline forbids for xdist workers:
writing the `baseline_commit` / `baseline_scope` metadata, saving the final
baseline summary, downloading the remote baseline, closing the remote
storage handle. -/
def forbiddenForWorker : Event → Bool
  | .setMetadata k _ => k == "baseline_commit" || k == "baseline_scope"
  | .saveBaselineSummary => true
  | .downloadRemote => true
  | .closeStorage => true
  | _ => false

/-! ## Plugin remote-URL configuration model (for `PytestDiffPlugin.__init__`,
`plugin.py` 83-106) -/

/-- Result of the remote-URL normalization in the plugin constructor:
`failed` is the `ValueError` raised on a trailing-slash URL, `crashed` the
`IndexError` reached when a slashless value ends in `.db`. -/
inductive PluginRemoteConfig
  | failed (url : String)
  | crashed
  | ok (remoteUrl : Option String) (remoteKey : String)
deriving DecidableEq

/-- The remote-URL handling of `PytestDiffPlugin.__init__`: resolve the URL
from the CLI option, falling back to the ini key (empty strings are falsy)
and the remote key from its ini default; reject prefix URLs (trailing
slash); when the URL's last path segment ends in `.db` and the remote key is
the default `baseline.db`, split the URL into a trailing-slash prefix and
that segment as the key. -/
def pluginRemoteConfig (cliRemote : Option String) (iniRemote iniKey : String) :
    PluginRemoteConfig :=
  let remoteUrl := pyOr cliRemote iniRemote
  let effKey := if iniKey = "" then "baseline.db" else iniKey
  match remoteUrl with
  | none => .ok none effKey
  | some url =>
    if pyEndsWith url "/" then .failed url
    else
      match rsplitSlash url with
      | some p =>
        if pyEndsWith p.2 ".db" && (effKey == "baseline.db") then
          .ok (some (p.1 ++ "/")) p.2
        else .ok (some url) effKey
      | none =>
        if pyEndsWith url ".db" && (effKey == "baseline.db") then .crashed
        else .ok (some url) effKey

/-! ## Concrete environment used by witnesses -/

/-- A small concrete CLI environment: one plain input store, one directory of
two stores, one remote prefix of two stores, one remote single object; the
merge step fails exactly on `bad.db`. -/
def envA : CliEnv where
  pathExists := fun p => p == "in1.db" || p == "dir1" || p == "bad.db"
  isDir := fun p => p == "dir1"
  dirDbFiles := fun p => if p == "dir1" then ["dir1/a.db", "dir1/b.db"] else []
  remotePrefixDbs := fun u =>
    if u == "s3://bkt/run/" then some ["/tmp/j1.db", "/tmp/j2.db"]
    else if u == "s3://bkt/empty/" then some []
    else none
  remoteSingleDb := fun u =>
    if u == "s3://bkt/one.db" then some "/tmp/one.db" else none
  meta := fun p =>
    if p == "in1.db" then some "aaaa111122223333"
    else if p == "dir1/a.db" then some "bbbb111199998888"
    else none
  mergeStep := fun db s =>
    if s == "bad.db" then none else some (⟨(s, 1) :: db.rows⟩, ⟨1, 0⟩)
  uploadOk := fun u => u == "file:///dest/baseline.db"

/-! ## Helper lemmas -/

theorem strAppend_assoc (a b c : String) : a ++ b ++ c = a ++ (b ++ c) := by
  apply String.ext
  simp [String.data_append]

theorem FS.get_set (fs : FS) (p q : String) (f : FSFile) :
    (fs.set p f).get q = if q = p then some f else fs.get q := by
  by_cases h : q = p
  · subst h; simp [FS.get, FS.set, List.find?]
  · have hb : (p == q) = false := beq_eq_false_iff_ne.mpr (Ne.symm h)
    simp [FS.get, FS.set, List.find?, hb, h]

theorem joinComma_infix {x : String} :
    ∀ l : List String, x ∈ l →
      ∃ a b : String, joinComma l = a ++ x ++ b := by
  intro l
  induction l with
  | nil => intro h; cases h
  | cons y rest ih =>
    intro hmem
    cases rest with
    | nil =>
      have : x = y := by
        cases hmem with
        | head => rfl
        | tail _ h => cases h
      subst this
      exact ⟨"", "", by simp [joinComma, String.empty_append, String.append_empty]⟩
    | cons z rest2 =>
      cases hmem with
      | head =>
        refine ⟨"", ", " ++ joinComma (z :: rest2), ?_⟩
        rw [joinComma, String.empty_append, strAppend_assoc]
      | tail _ h =>
        obtain ⟨a, b, hab⟩ := ih h
        refine ⟨y ++ ", " ++ a, b, ?_⟩
        rw [joinComma, hab]
        rw [strAppend_assoc (y ++ ", ") a x, strAppend_assoc (y ++ ", ") (a ++ x) b,
          strAppend_assoc a x b]

theorem resolveInputsAux_acc (env : CliEnv) :
    ∀ (l acc : List String),
      resolveInputsAux env acc l = (resolveInputsAux env [] l).map (fun r => acc ++ r) := by
  intro l
  induction l with
  | nil => intro acc; simp [resolveInputsAux]
  | cons i rest ih =>
    intro acc
    by_cases hr : isRemoteUrl i
    · cases hdl : download_remote_databases env i with
      | none => simp [resolveInputsAux, hr, hdl]
      | some files =>
        simp only [resolveInputsAux, hr, if_true, hdl]
        rw [ih (acc ++ files), ih ([] ++ files)]
        cases resolveInputsAux env [] rest <;> simp
    · by_cases hd : env.isDir i
      · simp only [resolveInputsAux, hr, if_false, hd, if_true]
        rw [ih (acc ++ env.dirDbFiles i), ih ([] ++ env.dirDbFiles i)]
        cases resolveInputsAux env [] rest <;> simp
      · simp only [resolveInputsAux, hr, if_false, hd]
        rw [ih (acc ++ [i]), ih ([] ++ [i])]
        cases resolveInputsAux env [] rest <;> simp

/-! ## C4: local-filesystem download -/

/-- C4.  For every local-filesystem `download(remote_key, local_path)`: an
absent source under the storage root fails with `NotFound`; an existing
destination with mtime greater than or equal to the source mtime returns
`false` with the file system (hence the destination) unchanged and no bytes
copied; otherwise the source is copied to the destination and `true` is
returned. -/
theorem localDownload_spec (root : String) (fs : FS) (key lp : String) :
    (fs.get (root ++ "/" ++ key) = none →
      localDownload root fs key lp = .error .notFound) ∧
    (∀ s d, fs.get (root ++ "/" ++ key) = some s → fs.get lp = some d →
      s.mtime ≤ d.mtime → localDownload root fs key lp = .ok (fs, false)) ∧
    (∀ s, fs.get (root ++ "/" ++ key) = some s →
      (∀ d, fs.get lp = some d → d.mtime < s.mtime) →
      ∃ fs2, localDownload root fs key lp = .ok (fs2, true) ∧
        fs2.get lp = some s ∧ ∀ q, q ≠ lp → fs2.get q = fs.get q) := by
  refine ⟨?_, ?_, ?_⟩
  · intro h
    simp [localDownload, h]
  · intro s d hs hd hle
    simp [localDownload, hs, hd, hle]
  · intro s hs hlt
    refine ⟨fs.set lp s, ?_, ?_, ?_⟩
    · cases hd : fs.get lp with
      | none => simp [localDownload, hs, hd]
      | some d =>
        have := hlt d hd
        have : ¬ s.mtime ≤ d.mtime := by omega
        simp [localDownload, hs, hd, this]
    · simp [FS.get_set]
    · intro q hq
      simp [FS.get_set, hq]

/-- Witness for C4: all three branches exercised at concrete file systems. -/
theorem localDownload_spec_witness :
    localDownload "r" ⟨[]⟩ "k.db" "b.db" = .error .notFound ∧
    localDownload "r" ⟨[("r/k.db", ⟨5, 77⟩), ("b.db", ⟨9, 42⟩)]⟩ "k.db" "b.db"
      = .ok (⟨[("r/k.db", ⟨5, 77⟩), ("b.db", ⟨9, 42⟩)]⟩, false) ∧
    ∃ fs2, localDownload "r" ⟨[("r/k.db", ⟨5, 77⟩), ("b.db", ⟨2, 42⟩)]⟩ "k.db" "b.db"
      = .ok (fs2, true) ∧ fs2.get "b.db" = some ⟨5, 77⟩ := by
  refine ⟨(localDownload_spec "r" ⟨[]⟩ "k.db" "b.db").1 (by decide),
    (localDownload_spec "r" ⟨[("r/k.db", ⟨5, 77⟩), ("b.db", ⟨9, 42⟩)]⟩ "k.db" "b.db").2.1
      ⟨5, 77⟩ ⟨9, 42⟩ (by decide) (by decide) (by decide), ?_⟩
  obtain ⟨fs2, h1, h2, _⟩ :=
    (localDownload_spec "r" ⟨[("r/k.db", ⟨5, 77⟩), ("b.db", ⟨2, 42⟩)]⟩ "k.db" "b.db").2.2
      ⟨5, 77⟩ (by decide)
      (by
        intro d hd
        have h0 : FS.get ⟨[("r/k.db", ⟨5, 77⟩), ("b.db", ⟨2, 42⟩)]⟩ "b.db"
            = some ⟨2, 42⟩ := by decide
        rw [h0] at hd
        rw [← Option.some.inj hd]
        decide)
  exact ⟨fs2, h1, h2⟩

/-! ## C8: S3 conditional download -/

/-- Counterexample to C8 as stated: with the sidecar `b.db.etag` present (but
holding the empty string) and the local file `b.db` present, `download` does
NOT issue a conditional GET carrying the sidecar ETag — the `if cached_etag:`
truthiness guard drops it — so "a conditional GET is issued with the ETag read
from the sidecar file when both the sidecar and the local file exist" fails. -/
theorem s3Download_conditional_get_cex :
    S3Local.etagGet ⟨[("b.db", 7)], [("b.db.etag", "")]⟩ "b.db.etag" = some "" ∧
    (S3Local.fileGet ⟨[("b.db", 7)], [("b.db.etag", "")]⟩ "b.db").isSome = true ∧
    s3IfNoneMatch ⟨[("b.db", 7)], [("b.db.etag", "")]⟩ "b.db" = none ∧
    s3IfNoneMatch ⟨[("b.db", 7)], [("b.db.etag", "")]⟩ "b.db" ≠ some "" := by
  refine ⟨by decide, by decide, ?_, ?_⟩ <;> decide

/-- C8 (amended).  For every S3 `download(remote_key, local_path)`: a
conditional GET carries the whitespace-stripped sidecar ETag when the sidecar
`<local_path>.etag` and the local file both exist and the stripped content is
non-empty; a 304 response makes `download` return `false` with the local
state unchanged; a successful fetch writes the object bytes to `local_path`,
stores the response ETag in the sidecar when it is non-empty, and returns
`true`; an absent key fails with `NotFound`. -/
theorem s3Download_spec :
    (∀ (st : S3Local) (lp e : String), st.etagGet (lp ++ ".etag") = some e →
      (st.fileGet lp).isSome = true → pyStrip e ≠ "" →
      s3IfNoneMatch st lp = some (pyStrip e)) ∧
    (∀ (svc : Option String → S3Resp) (st : S3Local) (lp : String),
      svc (s3IfNoneMatch st lp) = .notModified →
      s3Download svc st lp = .ok (st, false)) ∧
    (∀ (svc : Option String → S3Resp) (st : S3Local) (lp : String) (b : Nat)
      (e : String), svc (s3IfNoneMatch st lp) = .ok b e →
      ∃ st2, s3Download svc st lp = .ok (st2, true) ∧ st2.fileGet lp = some b ∧
        (e ≠ "" → st2.etagGet (lp ++ ".etag") = some e)) ∧
    (∀ (svc : Option String → S3Resp) (st : S3Local) (lp : String),
      svc (s3IfNoneMatch st lp) = .noSuchKey →
      s3Download svc st lp = .error .notFound) := by
  refine ⟨?_, ?_, ?_, ?_⟩
  · intro st lp e he hf hne
    obtain ⟨v, hv⟩ := Option.isSome_iff_exists.mp hf
    simp [s3IfNoneMatch, he, hv, hne]
  · intro svc st lp h
    simp [s3Download, h]
  · intro svc st lp b e h
    by_cases he : e = ""
    · refine ⟨st.fileSet lp b, ?_, ?_, ?_⟩
      · simp [s3Download, h, he]
      · simp [S3Local.fileSet, S3Local.fileGet, List.find?]
      · intro h2; exact absurd he h2
    · refine ⟨(st.fileSet lp b).etagSet (lp ++ ".etag") e, ?_, ?_, ?_⟩
      · simp [s3Download, h, he]
      · simp [S3Local.etagSet, S3Local.fileSet, S3Local.fileGet, List.find?]
      · intro _
        simp [S3Local.etagSet, S3Local.fileSet, S3Local.etagGet, List.find?]
  · intro svc st lp h
    simp [s3Download, h]

/-- Witness for C8: a concrete sidecar/local pair yields the stripped
conditional header, a 304 service yields a cache hit, a succeeding service
writes body and sidecar, and a missing key yields `NotFound`. -/
theorem s3Download_spec_witness :
    s3IfNoneMatch ⟨[("b.db", 7)], [("b.db.etag", " tag1 ")]⟩ "b.db" = some "tag1" ∧
    s3Download (fun _ => .notModified) ⟨[("b.db", 7)], [("b.db.etag", " tag1 ")]⟩ "b.db"
      = .ok (⟨[("b.db", 7)], [("b.db.etag", " tag1 ")]⟩, false) ∧
    (∃ st2, s3Download (fun _ => .ok 9 "tag2") ⟨[], []⟩ "b.db" = .ok (st2, true) ∧
      st2.fileGet "b.db" = some 9 ∧ st2.etagGet "b.db.etag" = some "tag2") ∧
    s3Download (fun _ => .noSuchKey) ⟨[], []⟩ "b.db" = .error .notFound := by
  refine ⟨?_, ?_, ?_, ?_⟩
  · have := s3Download_spec.1 ⟨[("b.db", 7)], [("b.db.etag", " tag1 ")]⟩ "b.db" " tag1 "
      (by decide) (by decide) (by decide)
    simpa using this
  · exact s3Download_spec.2.1 (fun _ => .notModified)
      ⟨[("b.db", 7)], [("b.db.etag", " tag1 ")]⟩ "b.db" rfl
  · obtain ⟨st2, h1, h2, h3⟩ := s3Download_spec.2.2.1 (fun _ => .ok 9 "tag2")
      ⟨[], []⟩ "b.db" 9 "tag2" rfl
    exact ⟨st2, h1, h2, h3 (by decide)⟩
  · exact s3Download_spec.2.2.2 (fun _ => .noSuchKey) ⟨[], []⟩ "b.db" rfl

/-! ## C1: merge-tool input resolution -/

theorem resolveInputs_eq_spec (env : CliEnv) :
    ∀ inputs : List String, (∀ i ∈ inputs, resolveOneSpec env i ≠ none) →
      resolveInputs env inputs
        = some (inputs.flatMap fun i => (resolveOneSpec env i).getD []) := by
  intro inputs
  induction inputs with
  | nil => intro _; simp [resolveInputs, resolveInputsAux]
  | cons i rest ih =>
    intro h
    have hi : resolveOneSpec env i ≠ none := h i (List.mem_cons_self i rest)
    have hrest : ∀ j ∈ rest, resolveOneSpec env j ≠ none :=
      fun j hj => h j (List.mem_cons_of_mem i hj)
    have hrec := ih hrest
    cases hr : isRemoteUrl i with
    | true =>
      cases hdl : download_remote_databases env i with
      | none =>
        exact absurd (by simp [resolveOneSpec, hr, hdl]) hi
      | some files =>
        have hspec : resolveOneSpec env i = some files := by
          simp [resolveOneSpec, hr, hdl]
        show resolveInputsAux env [] (i :: rest) = _
        simp only [resolveInputsAux, hr, if_true, hdl]
        rw [resolveInputsAux_acc env rest ([] ++ files),
          show resolveInputsAux env [] rest = resolveInputs env rest from rfl, hrec]
        simp [hspec]
    | false =>
      cases hd : env.isDir i with
      | true =>
        have hspec : resolveOneSpec env i = some (env.dirDbFiles i) := by
          simp [resolveOneSpec, hr, hd]
        show resolveInputsAux env [] (i :: rest) = _
        simp only [resolveInputsAux, hr, hd, Bool.false_eq_true, if_false, if_true]
        rw [resolveInputsAux_acc env rest ([] ++ env.dirDbFiles i),
          show resolveInputsAux env [] rest = resolveInputs env rest from rfl, hrec]
        simp [hspec]
      | false =>
        have hspec : resolveOneSpec env i = some [i] := by
          simp [resolveOneSpec, hr, hd]
        show resolveInputsAux env [] (i :: rest) = _
        simp only [resolveInputsAux, hr, hd, Bool.false_eq_true, if_false]
        rw [resolveInputsAux_acc env rest ([] ++ [i]),
          show resolveInputsAux env [] rest = resolveInputs env rest from rfl, hrec]
        simp [hspec]

/-- C1.  For every merge-tool invocation whose remote downloads succeed, the
resolved input list is the in-order concatenation of per-input contributions,
and each input contributes exactly as the spec's grammar says: a plain local
path as-is, a local directory its `*.db` files, a remote prefix URL (trailing
slash) every `.db` file downloaded from under the prefix, and a remote
single-object URL that one downloaded file. -/
theorem resolve_inputs_grammar (env : CliEnv) (inputs : List String)
    (h : ∀ i ∈ inputs, resolveOneSpec env i ≠ none) :
    resolveInputs env inputs
      = some (inputs.flatMap fun i => (resolveOneSpec env i).getD []) ∧
    (∀ i, isRemoteUrl i = false → env.isDir i = false →
      resolveOneSpec env i = some [i]) ∧
    (∀ i, isRemoteUrl i = false → env.isDir i = true →
      resolveOneSpec env i = some (env.dirDbFiles i)) ∧
    (∀ i, isRemoteUrl i = true → pyEndsWith i "/" = true →
      resolveOneSpec env i = env.remotePrefixDbs i) ∧
    (∀ i, isRemoteUrl i = true → pyEndsWith i "/" = false →
      resolveOneSpec env i = (env.remoteSingleDb i).map fun f => [f]) := by
  refine ⟨resolveInputs_eq_spec env inputs h, ?_, ?_, ?_, ?_⟩
  · intro i h1 h2; simp [resolveOneSpec, h1, h2]
  · intro i h1 h2; simp [resolveOneSpec, h1, h2]
  · intro i h1 h2; simp [resolveOneSpec, download_remote_databases, h1, h2]
  · intro i h1 h2; simp [resolveOneSpec, download_remote_databases, h1, h2]

/-- Witness for C1: one input of each kind against the concrete environment;
the resolved list is their in-order concatenation. -/
theorem resolve_inputs_grammar_witness :
    resolveInputs envA ["in1.db", "dir1", "s3://bkt/run/", "s3://bkt/one.db"]
      = some ["in1.db", "dir1/a.db", "dir1/b.db", "/tmp/j1.db", "/tmp/j2.db",
          "/tmp/one.db"] := by
  have h := (resolve_inputs_grammar envA
    ["in1.db", "dir1", "s3://bkt/run/", "s3://bkt/one.db"] (by decide)).1
  rw [h]
  rfl

/-! ## C6: partial-failure semantics of the merge loops -/

theorem mergeLoopOps_append (step : DB → String → Option (DB × ImportResult))
    (xs : List String) :
    ∀ (db : DB) (ys : List String),
      mergeLoopOps step db (xs ++ ys)
        = ((mergeLoopOps step (mergeLoopOps step db xs).1 ys).1,
           (mergeLoopOps step db xs).2.1
             + (mergeLoopOps step (mergeLoopOps step db xs).1 ys).2.1,
           (mergeLoopOps step db xs).2.2
             + (mergeLoopOps step (mergeLoopOps step db xs).1 ys).2.2) := by
  induction xs with
  | nil => intro db ys; simp [mergeLoopOps]
  | cons f rest ih =>
    intro db ys
    cases hstep : step db f with
    | none => simpa [mergeLoopOps, hstep] using ih db ys
    | some p =>
      obtain ⟨db2, r⟩ := p
      simp [mergeLoopOps, hstep, ih db2 ys, Nat.add_assoc]

theorem cliMergeLoop_fail_after (step : DB → String → Option (DB × ImportResult))
    (xs : List String) :
    ∀ (db d : DB) (b t : Nat), cliMergeLoop step db xs = some (d, b, t) →
      ∀ (bad : String) (ys : List String), step d bad = none →
        cliMergeLoop step db (xs ++ bad :: ys) = none := by
  induction xs with
  | nil =>
    intro db d b t h bad ys hbad
    simp only [cliMergeLoop, Option.some.injEq, Prod.mk.injEq] at h
    obtain ⟨h1, _, _⟩ := h
    subst h1
    simp [cliMergeLoop, hbad]
  | cons f rest ih =>
    intro db d b t h bad ys hbad
    cases hstep : step db f with
    | none => simp [cliMergeLoop, hstep] at h
    | some p =>
      obtain ⟨db2, r⟩ := p
      simp only [cliMergeLoop, hstep] at h
      cases hr2 : cliMergeLoop step db2 rest with
      | none => rw [hr2] at h; simp at h
      | some t2 =>
        obtain ⟨d2, b2, t2c⟩ := t2
        rw [hr2] at h
        simp at h
        obtain ⟨hd2, _, _⟩ := h
        have hbad2 : step d2 bad = none := by rw [hd2]; exact hbad
        show cliMergeLoop step db ((f :: rest) ++ bad :: ys) = none
        simp only [List.cons_append, cliMergeLoop, hstep, List.append_eq]
        rw [ih db2 d2 b2 t2c hr2 bad ys hbad2]
        rfl

/-- Counterexample to C6 as stated: the claim quantifies over every merge of
multiple sources, but in the CLI merge command (`cli.py` `merge_databases`)
there is no per-source exception handler.  With the concrete merge step that
fails exactly on `bad.db` and succeeds on `a.db` and `c.db`, the CLI loop
over `["a.db", "bad.db", "c.db"]` raises (`none`): the remaining source
`c.db` is NOT merged — while the `_storage_ops` engine loop over the same
sources continues past the failure and merges both good sources. -/
theorem merge_partial_failure_cex :
    envA.mergeStep ⟨[("a.db", 1)]⟩ "bad.db" = none ∧
    (envA.mergeStep ⟨[]⟩ "a.db").isSome = true ∧
    (envA.mergeStep ⟨[("a.db", 1)]⟩ "c.db").isSome = true ∧
    cliMergeLoop envA.mergeStep ⟨[]⟩ ["a.db", "bad.db", "c.db"] = none ∧
    mergeLoopOps envA.mergeStep ⟨[]⟩ ["a.db", "bad.db", "c.db"]
      = (⟨[("c.db", 1), ("a.db", 1)]⟩, 2, 0) := by
  refine ⟨?_, ?_, ?_, ?_, ?_⟩ <;> decide

/-- C6 (amended).  In the remote-baseline merge engine
(`_download_and_merge_baselines`), a source whose merge fails is logged and
skipped and the remaining sources are still merged — the destination ends in
the same state as if the failing source had not been listed, retaining every
successfully merged row; in the CLI merge command, by contrast, a failing
source raises out of the loop and the remaining sources are not merged. -/
theorem merge_partial_failure (step : DB → String → Option (DB × ImportResult))
    (db : DB) (xs : List String) (bad : String) (ys : List String) :
    (step (mergeLoopOps step db xs).1 bad = none →
      mergeLoopOps step db (xs ++ bad :: ys) = mergeLoopOps step db (xs ++ ys)) ∧
    (∀ d b t, cliMergeLoop step db xs = some (d, b, t) → step d bad = none →
      cliMergeLoop step db (xs ++ bad :: ys) = none) := by
  constructor
  · intro hbad
    rw [mergeLoopOps_append step xs db (bad :: ys),
      mergeLoopOps_append step xs db ys]
    rw [show mergeLoopOps step (mergeLoopOps step db xs).1 (bad :: ys)
        = mergeLoopOps step (mergeLoopOps step db xs).1 ys by
      simp [mergeLoopOps, hbad]]
  · intro d b t h hbad
    exact cliMergeLoop_fail_after step xs db d b t h bad ys hbad

/-- Witness for C6 (amended): both conjuncts at the concrete failing source. -/
theorem merge_partial_failure_witness :
    mergeLoopOps envA.mergeStep ⟨[]⟩ (["a.db"] ++ "bad.db" :: ["c.db"])
      = mergeLoopOps envA.mergeStep ⟨[]⟩ (["a.db"] ++ ["c.db"]) ∧
    cliMergeLoop envA.mergeStep ⟨[]⟩ (["a.db"] ++ "bad.db" :: ["c.db"]) = none := by
  exact ⟨(merge_partial_failure envA.mergeStep ⟨[]⟩ ["a.db"] "bad.db" ["c.db"]).1
      (by decide),
    (merge_partial_failure envA.mergeStep ⟨[]⟩ ["a.db"] "bad.db" ["c.db"]).2
      ⟨[("a.db", 1)]⟩ 1 0 (by decide) (by decide)⟩

/-! ## C5: merge commit-consistency warning -/

theorem strInfix_extend (pre suf a b x y : String) (h : y = a ++ x ++ b) :
    pre ++ y ++ suf = (pre ++ a) ++ x ++ (b ++ suf) := by
  subst h
  apply String.ext
  simp [String.data_append]

/-- C5.  For every merge of source store files: with at most one distinct
`baseline_commit` across the sources no warning is emitted; with more than
one, exactly one warning is emitted whose text lists, for every distinct
commit, its 8-character abbreviation together with the count of files
carrying it; and a commit mismatch never changes the CLI exit code — on an
otherwise successful merge the exit code is 0 whatever the metadata (the
model reads metadata through a pure accessor, so the sources are never
mutated by the check). -/
theorem merge_commit_warning (meta : String → Option String)
    (inputs : List String) :
    ((gatherCommits meta inputs).length ≤ 1 →
      checkMergeCommitConsistency meta inputs = none) ∧
    ((gatherCommits meta inputs).length > 1 →
      ∃ msg, checkMergeCommitConsistency meta inputs = some msg ∧
        ∀ p ∈ gatherCommits meta inputs, ∃ a b : String,
          msg = a ++ (strTake8 p.1 ++ "(" ++ toString p.2.length ++ " files)") ++ b) ∧
    (∀ (env : CliEnv) (db0 : DB) (out : String) (ins localIns : List String)
      (d : DB) (bc tc : Nat),
      ins ≠ [] → ins.any (fun i => !isRemoteUrl i && !env.pathExists i) = false →
      resolveInputs env ins = some localIns → localIns ≠ [] →
      cliMergeLoop env.mergeStep db0 localIns = some (d, bc, tc) →
      isRemoteUrl out = false →
      mergeDatabases env db0 out ins
        = ⟨some 0, checkMergeCommitConsistency env.meta localIns⟩) := by
  refine ⟨?_, ?_, ?_⟩
  · intro hle
    have : ¬ (gatherCommits meta inputs).length > 1 := by omega
    simp [checkMergeCommitConsistency, this]
  · intro hgt
    refine ⟨"Warning: Merging baselines from different commits: "
      ++ joinComma ((gatherCommits meta inputs).map commitEntry)
      ++ ". This may cause inconsistent test selection.", ?_, ?_⟩
    · simp [checkMergeCommitConsistency, hgt]
    · intro p hp
      obtain ⟨a, b, hab⟩ :=
        joinComma_infix ((gatherCommits meta inputs).map commitEntry)
          (List.mem_map_of_mem commitEntry hp)
      exact ⟨"Warning: Merging baselines from different commits: " ++ a,
        b ++ ". This may cause inconsistent test selection.",
        strInfix_extend _ _ a b (commitEntry p) _ hab⟩
  · intro env db0 out ins localIns d bc tc h1 h2 h3 h4 h5 h6
    simp only [mergeDatabases, if_neg h1, h2, Bool.false_eq_true, if_false, h3,
      if_neg h4, h5, h6]

/-- Witness for C5: two inputs with distinct commits produce one warning
mentioning both 8-character abbreviations; a single commit produces none; a
successful merge over mismatched sources still exits 0 with the warning. -/
theorem merge_commit_warning_witness :
    (∃ msg, checkMergeCommitConsistency envA.meta ["in1.db", "dir1/a.db"]
        = some msg ∧
      (∃ a b : String, msg = a ++ (strTake8 "aaaa111122223333" ++ "("
        ++ toString (List.length ["in1.db"]) ++ " files)") ++ b) ∧
      (∃ a b : String, msg = a ++ (strTake8 "bbbb111199998888" ++ "("
        ++ toString (List.length ["a.db"]) ++ " files)") ++ b)) ∧
    checkMergeCommitConsistency envA.meta ["in1.db"] = none ∧
    mergeDatabases envA ⟨[]⟩ "out.db" ["in1.db", "dir1"]
      = ⟨some 0, checkMergeCommitConsistency envA.meta
          ["in1.db", "dir1/a.db", "dir1/b.db"]⟩ := by
  refine ⟨?_, ?_, ?_⟩
  · obtain ⟨msg, hmsg, hall⟩ :=
      (merge_commit_warning envA.meta ["in1.db", "dir1/a.db"]).2.1 (by decide)
    refine ⟨msg, hmsg, ?_, ?_⟩
    · exact hall ("aaaa111122223333", ["in1.db"]) (by decide)
    · exact hall ("bbbb111199998888", ["a.db"]) (by decide)
  · exact (merge_commit_warning envA.meta ["in1.db"]).1 (by decide)
  · exact (merge_commit_warning envA.meta ["in1.db"]).2.2 envA ⟨[]⟩ "out.db"
      ["in1.db", "dir1"] ["in1.db", "dir1/a.db", "dir1/b.db"]
      ⟨[("dir1/b.db", 1), ("dir1/a.db", 1), ("in1.db", 1)]⟩ 3 0
      (by decide) (by decide) (by decide) (by decide) (by decide) (by decide)

/-! ## C7: CLI merge exit codes -/

/-- C7.  The merge command returns exit code 1 on an empty input list, on a
non-remote input path that does not exist, on a remote-download failure
during resolution, on an input set resolving to zero `.db` files, and on a
failed upload of a remote output; it returns 0 when the merges succeed and
the output is local or its upload succeeds.  The commit warning is emitted on
stderr only (the `warning` field) and the exit code above is whatever it is
for ANY metadata accessor, so warnings never change it. -/
theorem merge_cli_exit_codes (env : CliEnv) (db0 : DB) (out : String)
    (inputs : List String) :
    (inputs = [] → mergeDatabases env db0 out inputs = ⟨some 1, none⟩) ∧
    (inputs ≠ [] →
      inputs.any (fun i => !isRemoteUrl i && !env.pathExists i) = true →
      mergeDatabases env db0 out inputs = ⟨some 1, none⟩) ∧
    (inputs ≠ [] →
      inputs.any (fun i => !isRemoteUrl i && !env.pathExists i) = false →
      resolveInputs env inputs = none →
      mergeDatabases env db0 out inputs = ⟨some 1, none⟩) ∧
    (inputs ≠ [] →
      inputs.any (fun i => !isRemoteUrl i && !env.pathExists i) = false →
      resolveInputs env inputs = some [] →
      mergeDatabases env db0 out inputs = ⟨some 1, none⟩) ∧
    (∀ localIns d bc tc, inputs ≠ [] →
      inputs.any (fun i => !isRemoteUrl i && !env.pathExists i) = false →
      resolveInputs env inputs = some localIns → localIns ≠ [] →
      cliMergeLoop env.mergeStep db0 localIns = some (d, bc, tc) →
      isRemoteUrl out = true → env.uploadOk out = false →
      (mergeDatabases env db0 out inputs).exitCode = some 1) ∧
    (∀ localIns d bc tc, inputs ≠ [] →
      inputs.any (fun i => !isRemoteUrl i && !env.pathExists i) = false →
      resolveInputs env inputs = some localIns → localIns ≠ [] →
      cliMergeLoop env.mergeStep db0 localIns = some (d, bc, tc) →
      isRemoteUrl out = true → env.uploadOk out = true →
      (mergeDatabases env db0 out inputs).exitCode = some 0) ∧
    (∀ localIns d bc tc, inputs ≠ [] →
      inputs.any (fun i => !isRemoteUrl i && !env.pathExists i) = false →
      resolveInputs env inputs = some localIns → localIns ≠ [] →
      cliMergeLoop env.mergeStep db0 localIns = some (d, bc, tc) →
      isRemoteUrl out = false →
      (mergeDatabases env db0 out inputs).exitCode = some 0) := by
  refine ⟨?_, ?_, ?_, ?_, ?_, ?_, ?_⟩
  · intro h
    simp [mergeDatabases, h]
  · intro h1 h2
    simp [mergeDatabases, if_neg h1, h2]
  · intro h1 h2 h3
    simp only [mergeDatabases, if_neg h1, h2, Bool.false_eq_true, if_false, h3]
  · intro h1 h2 h3
    simp only [mergeDatabases, if_neg h1, h2, Bool.false_eq_true, if_false, h3]
    simp
  · intro localIns d bc tc h1 h2 h3 h4 h5 h6 h7
    simp only [mergeDatabases, if_neg h1, h2, Bool.false_eq_true, if_false, h3,
      if_neg h4, h5, h6, upload_to_remote, h7]
    simp
  · intro localIns d bc tc h1 h2 h3 h4 h5 h6 h7
    simp only [mergeDatabases, if_neg h1, h2, Bool.false_eq_true, if_false, h3,
      if_neg h4, h5, h6, upload_to_remote, h7]
    simp
  · intro localIns d bc tc h1 h2 h3 h4 h5 h6
    simp only [mergeDatabases, if_neg h1, h2, Bool.false_eq_true, if_false, h3,
      if_neg h4, h5, h6]

/-- Witness for C7: every branch at the concrete environment — empty inputs,
a missing local input, a failing remote download, an empty resolution, a
failing and a succeeding remote upload, and a local output. -/
theorem merge_cli_exit_codes_witness :
    mergeDatabases envA ⟨[]⟩ "out.db" [] = ⟨some 1, none⟩ ∧
    mergeDatabases envA ⟨[]⟩ "out.db" ["nope.db"] = ⟨some 1, none⟩ ∧
    mergeDatabases envA ⟨[]⟩ "out.db" ["s3://bkt/other/"] = ⟨some 1, none⟩ ∧
    mergeDatabases envA ⟨[]⟩ "out.db" ["s3://bkt/empty/"] = ⟨some 1, none⟩ ∧
    (mergeDatabases envA ⟨[]⟩ "s3://bkt/out.db" ["in1.db"]).exitCode = some 1 ∧
    (mergeDatabases envA ⟨[]⟩ "file:///dest/baseline.db" ["in1.db"]).exitCode
      = some 0 ∧
    (mergeDatabases envA ⟨[]⟩ "out.db" ["in1.db"]).exitCode = some 0 := by
  refine ⟨(merge_cli_exit_codes envA ⟨[]⟩ "out.db" []).1 rfl,
    (merge_cli_exit_codes envA ⟨[]⟩ "out.db" ["nope.db"]).2.1 (by decide) (by decide),
    (merge_cli_exit_codes envA ⟨[]⟩ "out.db" ["s3://bkt/other/"]).2.2.1
      (by decide) (by decide) (by decide),
    (merge_cli_exit_codes envA ⟨[]⟩ "out.db" ["s3://bkt/empty/"]).2.2.2.1
      (by decide) (by decide) (by decide),
    (merge_cli_exit_codes envA ⟨[]⟩ "s3://bkt/out.db" ["in1.db"]).2.2.2.2.1
      ["in1.db"] ⟨[("in1.db", 1)]⟩ 1 0 (by decide) (by decide) (by decide)
      (by decide) (by decide) (by decide) (by decide),
    (merge_cli_exit_codes envA ⟨[]⟩ "file:///dest/baseline.db" ["in1.db"]).2.2.2.2.2.1
      ["in1.db"] ⟨[("in1.db", 1)]⟩ 1 0 (by decide) (by decide) (by decide)
      (by decide) (by decide) (by decide) (by decide),
    (merge_cli_exit_codes envA ⟨[]⟩ "out.db" ["in1.db"]).2.2.2.2.2.2
      ["in1.db"] ⟨[("in1.db", 1)]⟩ 1 0 (by decide) (by decide) (by decide)
      (by decide) (by decide) (by decide)⟩

/-! ## C2: remote baseline errors on a selection run -/

/-- C2.  On a selection run (`--diff`, not baseline) with a remote baseline
configured and a working storage backend and a single-file remote key: a
`NotFound` from the download is swallowed — the run continues with the local
store exactly as it was, nothing imported; any other download error (for
example a credential rejection) aborts the test run with return code 1,
which is non-zero. -/
theorem remote_selection_download_errors (remoteKey : String)
    (dl : Except StorageErr Bool) (imp : DB → Option DB)
    (mb : Except StorageErr (Option DB)) (db : Option DB)
    (hkey : isPrefixKey remoteKey = false) :
    (dl = .error .notFound →
      configureRemoteSelection true false true remoteKey dl imp mb db
        = .continued db) ∧
    (∀ e, dl = .error e → e ≠ .notFound →
      configureRemoteSelection true false true remoteKey dl imp mb db
        = .aborted 1 ∧ (1 : Nat) ≠ 0) := by
  constructor
  · intro h
    simp [configureRemoteSelection, downloadAndImportBaseline, hkey,
      downloadSingleBaseline, h]
  · intro e h hne
    have hdl : downloadSingleBaseline dl imp db = .error e := by
      rw [h]
      cases e with
      | notFound => exact absurd rfl hne
      | authError => rfl
      | otherErr => rfl
    refine ⟨?_, by omega⟩
    simp [configureRemoteSelection, downloadAndImportBaseline, hkey, hdl]

/-- Witness for C2: with the default single-file key, `NotFound` continues
with the untouched store while a credential rejection aborts with code 1. -/
theorem remote_selection_download_errors_witness :
    configureRemoteSelection true false true "baseline.db"
      (.error .notFound) (fun d => some d) (.ok none) (some ⟨[("x", 1)]⟩)
      = .continued (some ⟨[("x", 1)]⟩) ∧
    configureRemoteSelection true false true "baseline.db"
      (.error .authError) (fun d => some d) (.ok none) (some ⟨[("x", 1)]⟩)
      = .aborted 1 := by
  refine ⟨(remote_selection_download_errors "baseline.db" (.error .notFound)
      (fun d => some d) (.ok none) (some ⟨[("x", 1)]⟩) (by decide)).1 rfl,
    ((remote_selection_download_errors "baseline.db" (.error .authError)
      (fun d => some d) (.ok none) (some ⟨[("x", 1)]⟩) (by decide)).2
      StorageErr.authError rfl (by decide)).1⟩

/-! ## C3: test-execution recording discipline -/

/-- C3.  For every test report: in selection mode (`--diff` without
`--diff-baseline`) the batch of test-execution records is never touched, for
any outcome; a genuinely failed test (call-phase exception that is neither a
skip nor an xfail) is never recorded; and whenever a record IS created, the
plugin is enabled, is in baseline mode, the outcome is not a genuine failure,
and the single appended record carries `failed = false`. -/
theorem makereport_record_discipline (enabled baseline : Bool)
    (phase : CallPhase) (exc : Option ExcKind) (hasXfailMarker : Bool)
    (nodeid : String) (testFileFp covFps : List Nat) (duration : Nat)
    (batch : List TestExecRecord) :
    (baseline = false →
      makereportBatch enabled baseline phase exc hasXfailMarker nodeid
        testFileFp covFps duration batch = batch) ∧
    (phase = CallPhase.call → exc = some ExcKind.otherFail →
      hasXfailMarker = false →
      makereportBatch enabled baseline phase exc hasXfailMarker nodeid
        testFileFp covFps duration batch = batch) ∧
    (makereportBatch enabled baseline phase exc hasXfailMarker nodeid
        testFileFp covFps duration batch = batch ∨
      (enabled = true ∧ baseline = true ∧
        ¬(phase = CallPhase.call ∧ exc = some ExcKind.otherFail ∧
          hasXfailMarker = false) ∧
        ∃ r, makereportBatch enabled baseline phase exc hasXfailMarker nodeid
            testFileFp covFps duration batch = batch ++ [r] ∧
          r.failed = false)) := by
  refine ⟨?_, ?_, ?_⟩
  · intro hb
    subst hb
    cases enabled <;> simp [makereportBatch]
  · intro hp he hm
    subst hp; subst he; subst hm
    cases enabled <;> cases baseline <;> simp [makereportBatch]
  · cases enabled with
    | false => left; simp [makereportBatch]
    | true =>
      cases baseline with
      | false => left; simp [makereportBatch]
      | true =>
        cases phase with
        | teardown => left; simp [makereportBatch]
        | setup =>
          rcases exc with _ | k
          · left; simp [makereportBatch]
          · cases k with
            | skipped =>
              by_cases htf : testFileFp = []
              · left; simp [makereportBatch, htf]
              · right
                refine ⟨rfl, rfl, ?_, ⟨nodeid, testFileFp, 0, false⟩, ?_, rfl⟩
                · rintro ⟨hc, _, _⟩; simp at hc
                · simp [makereportBatch, htf]
            | xfailExc => left; simp [makereportBatch]
            | otherFail => left; simp [makereportBatch]
        | call =>
          rcases exc with _ | k
          · by_cases hcov : covFps = []
            · left; simp [makereportBatch, hcov]
            · right
              refine ⟨rfl, rfl, ?_, ⟨nodeid, covFps, duration, false⟩, ?_, rfl⟩
              · rintro ⟨_, h2, _⟩; simp at h2
              · simp [makereportBatch, hcov]
          · cases k with
            | skipped =>
              by_cases hcov : covFps = []
              · left; simp [makereportBatch, hcov]
              · right
                refine ⟨rfl, rfl, ?_, ⟨nodeid, covFps, duration, false⟩, ?_, rfl⟩
                · rintro ⟨_, h2, _⟩; simp at h2
                · simp [makereportBatch, hcov]
            | xfailExc =>
              by_cases hcov : covFps = []
              · left; simp [makereportBatch, hcov]
              · right
                refine ⟨rfl, rfl, ?_, ⟨nodeid, covFps, duration, false⟩, ?_, rfl⟩
                · rintro ⟨_, h2, _⟩; simp at h2
                · simp [makereportBatch, hcov]
            | otherFail =>
              cases hasXfailMarker with
              | false => left; simp [makereportBatch]
              | true =>
                by_cases hcov : covFps = []
                · left; simp [makereportBatch, hcov]
                · right
                  refine ⟨rfl, rfl, ?_, ⟨nodeid, covFps, duration, false⟩, ?_, rfl⟩
                  · rintro ⟨_, _, h3⟩; simp at h3
                  · simp [makereportBatch, hcov]

/-- Witness for C3: a selection-mode report leaves the batch empty, a
baseline-mode genuine failure leaves it empty, and a baseline-mode pass
appends one non-failed record. -/
theorem makereport_record_discipline_witness :
    makereportBatch true false CallPhase.call none false "t1" [1] [2] 3 [] = [] ∧
    makereportBatch true true CallPhase.call (some ExcKind.otherFail) false
      "t1" [1] [2] 3 [] = [] ∧
    makereportBatch true true CallPhase.call none false "t1" [1] [2] 3 []
      = [⟨"t1", [2], 3, false⟩] := by
  refine ⟨(makereport_record_discipline true false CallPhase.call none false
      "t1" [1] [2] 3 []).1 rfl,
    (makereport_record_discipline true true CallPhase.call
      (some ExcKind.otherFail) false "t1" [1] [2] 3 []).2.1 rfl rfl rfl,
    by decide⟩

/-! ## C9: xdist single-writer discipline -/

/-- C9.  In every run, whatever the mode, store state, upload flag, remote
configuration or git SHA, an xdist worker process never writes the
`baseline_commit` or `baseline_scope` metadata, never saves the final
baseline summary, never downloads the remote baseline and never closes the
remote storage handle; the controller/standalone traces do contain those
steps (sample instances), so only that process performs them. -/
theorem worker_single_writer :
    (∀ (baseline dbOpenOk upload hasRemote : Bool) (sha : Option String)
      (sj : String),
      (workerRunEvents baseline dbOpenOk upload hasRemote sha sj).all
        (fun e => !forbiddenForWorker e) = true) ∧
    Event.saveBaselineSummary
      ∈ controllerRunEvents true true true (some "c0ffee00") "scopes" ∧
    Event.setMetadata "baseline_commit" "c0ffee00"
      ∈ controllerRunEvents true true true (some "c0ffee00") "scopes" ∧
    Event.setMetadata "baseline_scope" "scopes"
      ∈ controllerRunEvents true true true (some "c0ffee00") "scopes" ∧
    Event.uploadRemote
      ∈ controllerRunEvents true true true (some "c0ffee00") "scopes" ∧
    Event.downloadRemote
      ∈ controllerRunEvents false false true none "scopes" := by
  refine ⟨?_, by decide, by decide, by decide, by decide, by decide⟩
  intro baseline dbOpenOk upload hasRemote sha sj
  cases baseline <;> cases dbOpenOk <;>
    simp [workerRunEvents, configureWorkerEvents, terminalSummaryEvents,
      forbiddenForWorker]

/-! ## C10: plugin remote-URL normalization -/

theorem splitAtLastSlashAux_eq (l : List Char) :
    ∀ a b, splitAtLastSlashAux l = some (a, b) → l = a ++ '/' :: b := by
  induction l with
  | nil => intro a b h; cases h
  | cons c cs ih =>
    intro a b h
    simp only [splitAtLastSlashAux] at h
    cases hrec : splitAtLastSlashAux cs with
    | some p =>
      obtain ⟨a0, b0⟩ := p
      rw [hrec] at h
      simp only [Option.some.injEq, Prod.mk.injEq] at h
      obtain ⟨h1, h2⟩ := h
      subst h1; subst h2
      simp [ih a0 b0 hrec]
    | none =>
      rw [hrec] at h
      by_cases hc : c = '/'
      · rw [if_pos hc] at h
        simp only [Option.some.injEq, Prod.mk.injEq] at h
        obtain ⟨h1, h2⟩ := h
        subst h1; subst h2
        simp [hc]
      · simp [hc] at h

theorem rsplitSlash_eq (s p0 p1 : String) (h : rsplitSlash s = some (p0, p1)) :
    s = p0 ++ "/" ++ p1 := by
  unfold rsplitSlash at h
  cases hs : splitAtLastSlashAux s.data with
  | none => rw [hs] at h; cases h
  | some q =>
    obtain ⟨a, b⟩ := q
    rw [hs] at h
    simp only [Option.map_some', Option.some.injEq, Prod.mk.injEq] at h
    obtain ⟨h1, h2⟩ := h
    have hdata := splitAtLastSlashAux_eq s.data a b hs
    apply String.ext
    rw [String.data_append, String.data_append, ← h1, ← h2]
    simpa using hdata

/-- C10.  For every configured remote URL: a URL ending in a slash makes the
plugin constructor fail with an error (the `ValueError`) rather than treat
it as a prefix; and when the URL's last path segment ends in `.db` while the
effective remote key is the default `baseline.db`, the URL is split — the
remote key becomes that final segment and the storage URL becomes the
remaining part with a trailing slash (their concatenation reassembles the
original URL). -/
theorem plugin_remote_url_rules (cliRemote : Option String)
    (iniRemote iniKey url : String) :
    (pyOr cliRemote iniRemote = some url → pyEndsWith url "/" = true →
      pluginRemoteConfig cliRemote iniRemote iniKey = .failed url) ∧
    (∀ p0 p1, pyOr cliRemote iniRemote = some url → pyEndsWith url "/" = false →
      rsplitSlash url = some (p0, p1) → pyEndsWith p1 ".db" = true →
      (if iniKey = "" then "baseline.db" else iniKey) = "baseline.db" →
      pluginRemoteConfig cliRemote iniRemote iniKey = .ok (some (p0 ++ "/")) p1 ∧
      url = p0 ++ "/" ++ p1) := by
  constructor
  · intro hu hend
    simp [pluginRemoteConfig, hu, hend]
  · intro p0 p1 hu hend hsplit hdb hkey
    refine ⟨?_, rsplitSlash_eq url p0 p1 hsplit⟩
    simp [pluginRemoteConfig, hu, hend, hsplit, hdb, hkey]

/-- Witness for C10: a trailing-slash URL is rejected; a single-file URL
with the default key is split into prefix and key. -/
theorem plugin_remote_url_rules_witness :
    pluginRemoteConfig (some "s3://bkt/path/") "" ""
      = .failed "s3://bkt/path/" ∧
    pluginRemoteConfig (some "s3://bkt/path/base.db") "" ""
      = .ok (some ("s3://bkt/path" ++ "/")) "base.db" ∧
    "s3://bkt/path/base.db" = "s3://bkt/path" ++ "/" ++ "base.db" := by
  have h2 := (plugin_remote_url_rules (some "s3://bkt/path/base.db") "" ""
      "s3://bkt/path/base.db").2 "s3://bkt/path" "base.db" rfl (by decide)
      (by decide) (by decide) (by decide)
  exact ⟨(plugin_remote_url_rules (some "s3://bkt/path/") "" ""
      "s3://bkt/path/").1 rfl (by decide), h2.1, h2.2⟩
